import Mathlib

/-!
Shallow embedding of the conversion code generated by the declarative macros
in src/lib.rs of the impl-converter-helper crate: the struct-field and
enum-variant expanders under the three propagation strategies implemented by
the macros named from, try_from and force_from.

Modelling conventions.
Field and payload values are drawn from generic types: V is the type of
source field or payload values, D the type of destination field or payload
values, E the error type of the fallible strategy, W the warning type of the
warning-accumulating strategy and W0 the warning type produced by an
override expression of the enum form of force_from. A source struct is a
total map from field names to values (field access in the host language is
total); a destination struct value is the list of its fields, name and
value, in declaration order; an enum value is a variant tag together with
the list of its payload values. The implicit per-value conversion invoked by
the generated code (the Into, TryInto and ForceInto operations of the host)
is a parameter of each generated function: conv for the total strategy,
tconv for the fallible one (returning Except E D, the model of Result), and
fconv for the warning-accumulating one (returning a value paired with the
list of warnings its conversion produced, the model of the Warned pair).
The external Warned pair type is modelled as a plain product D times List W;
its unwrap operation appends the warnings of the pair to the accumulator and
returns the value, and the conversion of a plain value into a Warned pair
attaches the empty warning list, following the collaborating library as the
macros use it. Override expressions are pure functions of what they can
mention: the whole source value for struct fields, the bound payload values
for enum variants. The function wInto models the Into conversion applied by
force_from to the warnings of an enum-variant override (the map_warnings
call in the macro source).
-/

namespace ImplConverter

variable {V D E W W0 : Type}

/-- Field specification of the struct form of the from macro: a destination
field name and an optional override expression. -/
structure FromFieldSpec (V D : Type) where
  name : String
  value : Option ((String → V) → D)

/-- Embedding of the helper macro __from_struct_field: without an override
it reads the like-named source field and applies the implicit conversion;
with an override it is the override expression verbatim. -/
def __from_struct_field (conv : V → D) (src : String → V)
    (s : FromFieldSpec V D) : D :=
  match s.value with
  | none => conv (src s.name)
  | some f => f src

/-- Embedding of the struct rule of the from macro: the generated body
builds the destination struct with one field expression per specification,
in declaration order. -/
def from_struct (conv : V → D) (specs : List (FromFieldSpec V D))
    (src : String → V) : List (String × D) :=
  specs.map fun s => (s.name, __from_struct_field conv src s)

/-- Variant specification of the enum forms: a variant name, an optional
parenthesised list of payload binders (none models a specification written
without parentheses, some k one written with k bound identifiers), and an
optional override expression mentioning the bound payload values. -/
structure FromVariantSpec (V D : Type) where
  name : String
  binders : Option Nat
  value : Option (List V → String × List D)

/-- Embedding of the helper macro __from_enum_variant: with an override the
arm is the override expression verbatim; otherwise the destination variant
of the same name is built, each bound payload converted by the implicit
conversion in position order. -/
def __from_enum_variant (conv : V → D) (s : FromVariantSpec V D)
    (payload : List V) : String × List D :=
  match s.value with
  | some f => f payload
  | none =>
    match s.binders with
    | none => (s.name, [])
    | some _ => (s.name, payload.map conv)

/-- Embedding of the enum rule of the from macro: the generated body matches
on the source variant tag, taking the first specification of that name; a
source variant covered by no specification is rejected by the host compiler,
modelled by the none result. -/
def from_enum (conv : V → D) (specs : List (FromVariantSpec V D))
    (src : String × List V) : Option (String × List D) :=
  match specs.find? (fun s => s.name == src.1) with
  | none => none
  | some s => some (__from_enum_variant conv s src.2)

/-- Field specification of the struct form of the try_from macro. An
override is an expression of the field type evaluated where the question
mark operator may propagate a failure, hence modelled in Except. -/
structure TryFieldSpec (V E D : Type) where
  name : String
  value : Option ((String → V) → Except E D)

/-- Embedding of the helper macro __try_from_struct_field: without an
override it applies the fallible implicit conversion to the like-named
source field, the question mark propagating its failure; with an override it
is the override expression verbatim. -/
def __try_from_struct_field (tconv : V → Except E D) (src : String → V)
    (s : TryFieldSpec V E D) : Except E D :=
  match s.value with
  | none => tconv (src s.name)
  | some f => f src

/-- Embedding of the struct rule of the try_from macro: the generated body
evaluates the field expressions in declaration order inside an Ok struct
literal, the first failure aborting the whole construction. -/
def try_from_struct (tconv : V → Except E D) (specs : List (TryFieldSpec V E D))
    (src : String → V) : Except E (List (String × D)) :=
  match specs with
  | [] => .ok []
  | s :: rest =>
    match __try_from_struct_field tconv src s with
    | .error e => .error e
    | .ok d =>
      match try_from_struct tconv rest src with
      | .error e => .error e
      | .ok ds => .ok ((s.name, d) :: ds)

/-- Variant specification of the enum form of the try_from macro. -/
structure TryVariantSpec (V E D : Type) where
  name : String
  binders : Option Nat
  value : Option (List V → Except E (String × List D))

/-- Left-to-right fallible conversion of the bound payload values of one
variant: the model of the argument list of the destination constructor,
every argument carrying a question mark, evaluated in position order with
the first failure propagating out. -/
def tryConvertPayload (tconv : V → Except E D) : List V → Except E (List D)
  | [] => .ok []
  | v :: vs =>
    match tconv v with
    | .error e => .error e
    | .ok d =>
      match tryConvertPayload tconv vs with
      | .error e => .error e
      | .ok ds => .ok (d :: ds)

/-- Embedding of the helper macro __try_from_enum_variant: with an override
the arm is the override expression verbatim; otherwise the arm wraps the
destination variant, its payload converted fallibly in position order, in
Ok, any failure propagating out. -/
def __try_from_enum_variant (tconv : V → Except E D) (s : TryVariantSpec V E D)
    (payload : List V) : Except E (String × List D) :=
  match s.value with
  | some f => f payload
  | none =>
    match s.binders with
    | none => .ok (s.name, [])
    | some _ =>
      match tryConvertPayload tconv payload with
      | .error e => .error e
      | .ok ds => .ok (s.name, ds)

/-- Embedding of the enum rule of the try_from macro. -/
def try_from_enum (tconv : V → Except E D) (specs : List (TryVariantSpec V E D))
    (src : String × List V) : Option (Except E (String × List D)) :=
  match specs.find? (fun s => s.name == src.1) with
  | none => none
  | some s => some (__try_from_enum_variant tconv s src.2)

/-- Override expression of a struct field of the force_from macro: the warn
form (written with the at-warn keyword) yields a value paired with warnings
to be unwrapped into the accumulator, the plain form yields the field value
directly. -/
inductive ForceOverride (V D W : Type) where
  | warn (f : (String → V) → D × List W)
  | plain (f : (String → V) → D)

/-- Field specification of the struct form of the force_from macro. -/
structure ForceFieldSpec (V D W : Type) where
  name : String
  value : Option (ForceOverride V D W)

/-- Embedding of the helper macro __force_from_struct_field, threading the
mutable warning accumulator explicitly: without an override the implicit
warning-accumulating conversion of the like-named source field is unwrapped
into the accumulator; a warn override is unwrapped the same way; a plain
override is the field value with the accumulator untouched. -/
def __force_from_struct_field (fconv : V → D × List W) (src : String → V)
    (s : ForceFieldSpec V D W) (warnings : List W) : D × List W :=
  match s.value with
  | none => ((fconv (src s.name)).1, warnings ++ (fconv (src s.name)).2)
  | some (.warn f) => ((f src).1, warnings ++ (f src).2)
  | some (.plain f) => (f src, warnings)

/-- Evaluation of the field expressions of the struct form of force_from in
declaration order, threading the warning accumulator. -/
def force_fields (fconv : V → D × List W) (src : String → V) :
    List (ForceFieldSpec V D W) → List W → List (String × D) × List W
  | [], warnings => ([], warnings)
  | s :: rest, warnings =>
    let r := __force_from_struct_field fconv src s warnings
    let t := force_fields fconv src rest r.2
    ((s.name, r.1) :: t.1, t.2)

/-- Embedding of the struct rule of the force_from macro: the accumulator
starts empty, the destination struct is built field by field in declaration
order, and the value is returned paired with the accumulated warnings. -/
def force_from_struct (fconv : V → D × List W)
    (specs : List (ForceFieldSpec V D W)) (src : String → V) :
    List (String × D) × List W :=
  force_fields fconv src specs []

/-- Variant specification of the enum form of the force_from macro. An
override yields a Warned pair whose warnings have their own type W0. -/
structure ForceVariantSpec (V D W0 : Type) where
  name : String
  binders : Option Nat
  value : Option (List V → (String × List D) × List W0)

/-- Left-to-right warning-accumulating conversion of the bound payload
values of one variant, threading the local warning accumulator of the
generated arm. -/
def forceConvertPayload (fconv : V → D × List W) :
    List V → List W → List D × List W
  | [], warnings => ([], warnings)
  | v :: vs, warnings =>
    let r := fconv v
    let t := forceConvertPayload fconv vs (warnings ++ r.2)
    (r.1 :: t.1, t.2)

/-- Embedding of the helper macro __force_from_enum_variant: with an
override the arm is the override pair with its warnings converted by the
Into conversion (the map_warnings call of the macro); a specification
without payload binders converts the bare destination variant into a Warned
pair, which attaches no warnings; otherwise a local accumulator collects the
warnings of the payload conversions in position order. -/
def __force_from_enum_variant (fconv : V → D × List W) (wInto : W0 → W)
    (s : ForceVariantSpec V D W0) (payload : List V) :
    (String × List D) × List W :=
  match s.value with
  | some f => ((f payload).1, (f payload).2.map wInto)
  | none =>
    match s.binders with
    | none => ((s.name, []), [])
    | some _ =>
      let r := forceConvertPayload fconv payload []
      ((s.name, r.1), r.2)

/-- Embedding of the enum rule of the force_from macro. -/
def force_from_enum (fconv : V → D × List W) (wInto : W0 → W)
    (specs : List (ForceVariantSpec V D W0)) (src : String × List V) :
    Option ((String × List D) × List W) :=
  match specs.find? (fun s => s.name == src.1) with
  | none => none
  | some s => some (__force_from_enum_variant fconv wInto s src.2)

/-- Value contributed by one field expression of the struct form of
force_from, read off the specification independently of the accumulator. -/
def forceFieldValue (fconv : V → D × List W) (src : String → V)
    (s : ForceFieldSpec V D W) : D :=
  match s.value with
  | none => (fconv (src s.name)).1
  | some (.warn f) => (f src).1
  | some (.plain f) => f src

/-- Warnings contributed by one field expression of the struct form of
force_from: the warnings of its own conversion, empty for a plain
override. -/
def forceFieldWarnings (fconv : V → D × List W) (src : String → V)
    (s : ForceFieldSpec V D W) : List W :=
  match s.value with
  | none => (fconv (src s.name)).2
  | some (.warn f) => (f src).2
  | some (.plain _) => []

/-! Helper lemmas shared by the claim theorems. -/

theorem forceStructField_fst (fconv : V → D × List W) (src : String → V)
    (s : ForceFieldSpec V D W) (warnings : List W) :
    (__force_from_struct_field fconv src s warnings).1
      = forceFieldValue fconv src s := by
  cases s with
  | mk name value =>
    cases value with
    | none => rfl
    | some o => cases o <;> rfl

theorem forceStructField_snd (fconv : V → D × List W) (src : String → V)
    (s : ForceFieldSpec V D W) (warnings : List W) :
    (__force_from_struct_field fconv src s warnings).2
      = warnings ++ forceFieldWarnings fconv src s := by
  cases s with
  | mk name value =>
    cases value with
    | none => rfl
    | some o =>
      cases o with
      | warn f => rfl
      | plain f => simp [__force_from_struct_field, forceFieldWarnings]

theorem force_fields_spec (fconv : V → D × List W) (src : String → V)
    (specs : List (ForceFieldSpec V D W)) : ∀ warnings : List W,
    force_fields fconv src specs warnings =
      (specs.map fun s => (s.name, forceFieldValue fconv src s),
       warnings ++ (specs.map (forceFieldWarnings fconv src)).flatten) := by
  induction specs with
  | nil => intro warnings; simp [force_fields]
  | cons s rest ih =>
    intro warnings
    simp [force_fields, ih, forceStructField_fst, forceStructField_snd,
      List.append_assoc]

theorem forceConvertPayload_spec (fconv : V → D × List W) (vs : List V) :
    ∀ warnings : List W,
    forceConvertPayload fconv vs warnings =
      (vs.map fun v => (fconv v).1,
       warnings ++ (vs.map fun v => (fconv v).2).flatten) := by
  induction vs with
  | nil => intro warnings; simp [forceConvertPayload]
  | cons v vs ih =>
    intro warnings
    simp [forceConvertPayload, ih, List.append_assoc]

theorem tryConvertPayload_eq_mapM (tconv : V → Except E D) (vs : List V) :
    tryConvertPayload tconv vs = vs.mapM tconv := by
  rw [← List.mapM'_eq_mapM]
  induction vs with
  | nil => rfl
  | cons v vs ih =>
    simp only [tryConvertPayload, ih, List.mapM']
    cases tconv v with
    | error e => rfl
    | ok d =>
      show _ = (List.mapM' tconv vs).bind _
      rw [← ih]
      cases tryConvertPayload tconv vs <;> rfl

theorem tryConvertPayload_first_error (tconv : V → Except E D)
    (p1 : List V) (v : V) (p2 : List V) (e : E)
    (h1 : ∀ u ∈ p1, ∃ d, tconv u = .ok d) (hv : tconv v = .error e) :
    tryConvertPayload tconv (p1 ++ v :: p2) = .error e := by
  induction p1 with
  | nil => simp [tryConvertPayload, hv]
  | cons u p1 ih =>
    obtain ⟨d, hd⟩ := h1 u (List.mem_cons_self u p1)
    have ih2 := ih fun t ht => h1 t (List.mem_cons_of_mem u ht)
    simp [tryConvertPayload, hd, ih2]

theorem try_from_struct_first_error (tconv : V → Except E D) (src : String → V)
    (pre : List (TryFieldSpec V E D)) (s : TryFieldSpec V E D)
    (post : List (TryFieldSpec V E D)) (e : E)
    (hpre : ∀ t ∈ pre, ∃ d, __try_from_struct_field tconv src t = .ok d)
    (hs : __try_from_struct_field tconv src s = .error e) :
    try_from_struct tconv (pre ++ s :: post) src = .error e := by
  induction pre with
  | nil => simp [try_from_struct, hs]
  | cons t pre ih =>
    obtain ⟨d, hd⟩ := hpre t (List.mem_cons_self t pre)
    have ih2 := ih fun u hu => hpre u (List.mem_cons_of_mem t hu)
    simp [try_from_struct, hd, ih2]

theorem from_enum_arm (conv : V → D) (specs : List (FromVariantSpec V D))
    (tag : String) (payload : List V) (sv : FromVariantSpec V D)
    (hfind : specs.find? (fun t => t.name == tag) = some sv) :
    from_enum conv specs (tag, payload)
      = some (__from_enum_variant conv sv payload) := by
  unfold from_enum
  rw [show specs.find? (fun t => t.name == (tag, payload).1) = some sv
    from hfind]

theorem try_from_enum_arm (tconv : V → Except E D)
    (specs : List (TryVariantSpec V E D)) (tag : String) (payload : List V)
    (sv : TryVariantSpec V E D)
    (hfind : specs.find? (fun t => t.name == tag) = some sv) :
    try_from_enum tconv specs (tag, payload)
      = some (__try_from_enum_variant tconv sv payload) := by
  unfold try_from_enum
  rw [show specs.find? (fun t => t.name == (tag, payload).1) = some sv
    from hfind]

theorem force_from_enum_arm (fconv : V → D × List W) (wInto : W0 → W)
    (specs : List (ForceVariantSpec V D W0)) (tag : String) (payload : List V)
    (sv : ForceVariantSpec V D W0)
    (hfind : specs.find? (fun t => t.name == tag) = some sv) :
    force_from_enum fconv wInto specs (tag, payload)
      = some (__force_from_enum_variant fconv wInto sv payload) := by
  unfold force_from_enum
  rw [show specs.find? (fun t => t.name == (tag, payload).1) = some sv
    from hfind]

/-! Claim theorems. -/

/-- C1: when every field specification of a struct form of the from macro
carries no override expression, the generated conversion equals applying the
implicit per-field conversion to each same-named source field independently
and assembling the destination struct field for field. -/
theorem claim_C1 (conv : V → D) (specs : List (FromFieldSpec V D))
    (src : String → V) (h : ∀ s ∈ specs, s.value = none) :
    from_struct conv specs src
      = specs.map fun s => (s.name, conv (src s.name)) := by
  unfold from_struct
  exact List.map_congr_left fun s hs => by
    simp [__from_struct_field, h s hs]

/-- Witness for C1 at a concrete one-field specification. -/
theorem claim_C1_witness :
    from_struct (fun v => v + 1)
      ([⟨"num", none⟩] : List (FromFieldSpec Nat Nat)) (fun _ => 41)
      = [("num", 42)] := by
  have h : ∀ s ∈ ([⟨"num", none⟩] : List (FromFieldSpec Nat Nat)),
      s.value = none := by
    intro s hs
    rw [List.mem_singleton] at hs
    subst hs
    rfl
  rw [claim_C1 (fun v => v + 1) _ (fun _ => 41) h]
  rfl

/-- C4: a variant specification with no payload binders and no override
yields, under each of the three strategies, the same-named destination
variant directly, never fails, and contributes no warnings. -/
theorem claim_C4 (conv : V → D) (tconv : V → Except E D)
    (fconv : V → D × List W) (wInto : W0 → W) (n : String) :
    __from_enum_variant conv ⟨n, none, none⟩ [] = (n, []) ∧
    __try_from_enum_variant tconv ⟨n, none, none⟩ [] = .ok (n, []) ∧
    __force_from_enum_variant fconv wInto ⟨n, none, none⟩ [] = ((n, []), []) :=
  ⟨rfl, rfl, rfl⟩

/-- C5 as stated is false: under the warning-accumulating strategy the
generated arm is not the override expression verbatim, because the macro
wraps the override in a map over its warnings by the Into conversion. Here
the override yields the pair with value named B and the single warning 5,
the modelled Into conversion is the successor function (a user conversion
between two distinct warning types, both modelled by Nat), and the arm
carries the warning 6 instead of the warning 5 of the override. -/
theorem claim_C5_counterexample :
    ¬ (__force_from_enum_variant (fun v : Nat => (v, ([] : List Nat))) Nat.succ
        ⟨"A", none, some fun _ => (("B", []), [5])⟩ []
      = (("B", []), [5])) := by
  decide

/-- C5 amended: under the total and fallible strategies the arm of a variant
specification with an override is the override expression verbatim; under
the warning-accumulating strategy the value part of the override pair is
used unchanged and its warnings are each converted by the Into conversion
into the destination warning type (the identity when the two warning types
coincide). -/
theorem claim_C5 (conv : V → D) (tconv : V → Except E D)
    (fconv : V → D × List W) (wInto : W0 → W) (n : String) (b : Option Nat)
    (payload : List V)
    (f1 : List V → String × List D)
    (f2 : List V → Except E (String × List D))
    (f3 : List V → (String × List D) × List W0) :
    __from_enum_variant conv ⟨n, b, some f1⟩ payload = f1 payload ∧
    __try_from_enum_variant tconv ⟨n, b, some f2⟩ payload = f2 payload ∧
    __force_from_enum_variant fconv wInto ⟨n, b, some f3⟩ payload
      = ((f3 payload).1, (f3 payload).2.map wInto) :=
  ⟨rfl, rfl, rfl⟩

/-- C8: a variant specification may bind any number of payload identifiers;
without an override each strategy applies its implicit conversion to the
bound payload values independently in position order and passes them to the
same-named destination variant, the fallible strategy short-circuiting on
the first failure and the warning-accumulating strategy concatenating the
warnings of the payload conversions in position order. -/
theorem claim_C8 (conv : V → D) (tconv : V → Except E D)
    (fconv : V → D × List W) (wInto : W0 → W) (n : String)
    (payload : List V) :
    __from_enum_variant conv ⟨n, some payload.length, none⟩ payload
      = (n, payload.map conv) ∧
    __try_from_enum_variant tconv ⟨n, some payload.length, none⟩ payload
      = Except.map (fun ds => (n, ds)) (payload.mapM tconv) ∧
    __force_from_enum_variant fconv wInto ⟨n, some payload.length, none⟩ payload
      = ((n, payload.map fun v => (fconv v).1),
         (payload.map fun v => (fconv v).2).flatten) := by
  refine ⟨rfl, ?_, ?_⟩
  · show (match tryConvertPayload tconv payload with
      | Except.error e => Except.error e
      | Except.ok ds => Except.ok (n, ds)) = _
    rw [tryConvertPayload_eq_mapM]
    cases payload.mapM tconv <;> rfl
  · show (let r := forceConvertPayload fconv payload []
      ((n, r.1), r.2)) = _
    rw [forceConvertPayload_spec]
    simp

/-- C10: with pure override expressions, each of the six generated
conversion functions is deterministic: equal source values give equal
results, warnings included. -/
theorem claim_C10 (conv : V → D) (tconv : V → Except E D)
    (fconv : V → D × List W) (wInto : W0 → W)
    (fspecs : List (FromFieldSpec V D)) (tspecs : List (TryFieldSpec V E D))
    (wspecs : List (ForceFieldSpec V D W))
    (fvars : List (FromVariantSpec V D)) (tvars : List (TryVariantSpec V E D))
    (wvars : List (ForceVariantSpec V D W0))
    (src1 src2 : String → V) (esrc1 esrc2 : String × List V)
    (h : src1 = src2) (he : esrc1 = esrc2) :
    from_struct conv fspecs src1 = from_struct conv fspecs src2 ∧
    try_from_struct tconv tspecs src1 = try_from_struct tconv tspecs src2 ∧
    force_from_struct fconv wspecs src1 = force_from_struct fconv wspecs src2 ∧
    from_enum conv fvars esrc1 = from_enum conv fvars esrc2 ∧
    try_from_enum tconv tvars esrc1 = try_from_enum tconv tvars esrc2 ∧
    force_from_enum fconv wInto wvars esrc1
      = force_from_enum fconv wInto wvars esrc2 := by
  subst h
  subst he
  exact ⟨rfl, rfl, rfl, rfl, rfl, rfl⟩

/-- C2: under the fallible strategy, when exactly one field of a struct
form, or exactly one payload value of the matched variant of an enum form,
has a failing implicit conversion, the whole generated conversion returns
exactly that failure value and no destination value is produced. -/
theorem claim_C2 (tconv : V → Except E D) (src : String → V)
    (pre post : List (TryFieldSpec V E D)) (s : TryFieldSpec V E D) (e : E)
    (especs : List (TryVariantSpec V E D)) (sv : TryVariantSpec V E D)
    (tag : String) (p1 p2 : List V) (v : V) (k : Nat)
    (hpre : ∀ t ∈ pre, ∃ d, __try_from_struct_field tconv src t = .ok d)
    (hpost : ∀ t ∈ post, ∃ d, __try_from_struct_field tconv src t = .ok d)
    (hs : __try_from_struct_field tconv src s = .error e)
    (hfind : especs.find? (fun t => t.name == tag) = some sv)
    (hovr : sv.value = none) (hbind : sv.binders = some k)
    (hp1 : ∀ u ∈ p1, ∃ d, tconv u = .ok d)
    (hp2 : ∀ u ∈ p2, ∃ d, tconv u = .ok d)
    (hv : tconv v = .error e) :
    try_from_struct tconv (pre ++ s :: post) src = .error e ∧
    try_from_enum tconv especs (tag, p1 ++ v :: p2) = some (.error e) := by
  constructor
  · exact try_from_struct_first_error tconv src pre s post e hpre hs
  · rw [try_from_enum_arm tconv especs tag (p1 ++ v :: p2) sv hfind]
    unfold __try_from_enum_variant
    simp only [hovr, hbind]
    rw [tryConvertPayload_first_error tconv p1 v p2 e hp1 hv]

/-- Witness for C2 at a concrete three-field struct and a concrete
three-payload variant, the failing conversion in the middle. -/
theorem claim_C2_witness :
    try_from_struct
      (fun v : Nat => if v = 0 then (Except.error 7 : Except Nat Nat)
        else Except.ok v)
      [⟨"a", none⟩, ⟨"b", none⟩, ⟨"c", none⟩]
      (fun n => if n == "b" then 0 else 1)
      = Except.error 7 ∧
    try_from_enum
      (fun v : Nat => if v = 0 then (Except.error 7 : Except Nat Nat)
        else Except.ok v)
      [⟨"T", some 3, none⟩] ("T", [1, 0, 2])
      = some (Except.error 7) := by
  have h := claim_C2
    (fun v : Nat => if v = 0 then (Except.error 7 : Except Nat Nat)
      else Except.ok v)
    (fun n => if n == "b" then 0 else 1)
    [⟨"a", none⟩] [⟨"c", none⟩] ⟨"b", none⟩ 7
    [⟨"T", some 3, none⟩] ⟨"T", some 3, none⟩ "T" [1] [2] 0 3
    (by
      intro t ht
      rw [List.mem_singleton] at ht
      subst ht
      exact ⟨1, rfl⟩)
    (by
      intro t ht
      rw [List.mem_singleton] at ht
      subst ht
      exact ⟨1, rfl⟩)
    rfl rfl rfl rfl
    (by
      intro u hu
      rw [List.mem_singleton] at hu
      subst hu
      exact ⟨1, rfl⟩)
    (by
      intro u hu
      rw [List.mem_singleton] at hu
      subst hu
      exact ⟨2, rfl⟩)
    rfl
  exact ⟨h.1, h.2⟩

/-- C3: under the warning-accumulating strategy the returned warnings are
the concatenation, in field declaration order respectively payload position
order, of the warnings produced by each field or payload conversion, and a
destination value is always present alongside them. -/
theorem claim_C3 (fconv : V → D × List W) (src : String → V)
    (specs : List (ForceFieldSpec V D W)) (wInto : W0 → W)
    (especs : List (ForceVariantSpec V D W0)) (tag : String)
    (payload : List V) (sv : ForceVariantSpec V D W0) (k : Nat)
    (hfind : especs.find? (fun t => t.name == tag) = some sv)
    (hovr : sv.value = none) (hbind : sv.binders = some k) :
    force_from_struct fconv specs src
      = (specs.map fun s => (s.name, forceFieldValue fconv src s),
         (specs.map (forceFieldWarnings fconv src)).flatten) ∧
    force_from_enum fconv wInto especs (tag, payload)
      = some ((sv.name, payload.map fun v => (fconv v).1),
              (payload.map fun v => (fconv v).2).flatten) := by
  constructor
  · unfold force_from_struct
    rw [force_fields_spec]
    simp
  · rw [force_from_enum_arm fconv wInto especs tag payload sv hfind]
    unfold __force_from_enum_variant
    simp only [hovr, hbind]
    rw [forceConvertPayload_spec]
    simp

/-- Witness for C3 at a concrete one-field struct and a concrete
two-payload variant. -/
theorem claim_C3_witness :
    force_from_struct (fun v : Nat => (v, [v + 10]))
      [⟨"a", none⟩] (fun _ => 1)
      = ([("a", 1)], [11]) ∧
    force_from_enum (fun v : Nat => (v, [v + 10])) (fun w : Nat => w)
      [⟨"T", some 2, none⟩] ("T", [1, 2])
      = some (("T", [1, 2]), [11, 12]) := by
  have h := claim_C3 (fun v : Nat => (v, [v + 10])) (fun _ => 1)
    [⟨"a", none⟩] (fun w : Nat => w) [⟨"T", some 2, none⟩] "T" [1, 2]
    ⟨"T", some 2, none⟩ 2 rfl rfl rfl
  exact ⟨h.1, h.2⟩

/-- C6: the generated enum dispatch sends a source value to the arm of the
first specification matching its variant tag; the destination is the
variant named in that specification with the implicitly converted payload
when no override is given, and the override result when one is given. -/
theorem claim_C6 (conv : V → D) (specs : List (FromVariantSpec V D))
    (tag : String) (payload : List V) (s : FromVariantSpec V D) (k : Nat)
    (hfind : specs.find? (fun t => t.name == tag) = some s) :
    (s.value = none → s.binders = some k →
      from_enum conv specs (tag, payload)
        = some (s.name, payload.map conv)) ∧
    (s.value = none → s.binders = none →
      from_enum conv specs (tag, payload) = some (s.name, [])) ∧
    (∀ f, s.value = some f →
      from_enum conv specs (tag, payload) = some (f payload)) := by
  refine ⟨?_, ?_, ?_⟩
  · intro hovr hbind
    rw [from_enum_arm conv specs tag payload s hfind]
    unfold __from_enum_variant
    simp only [hovr, hbind]
  · intro hovr hbind
    rw [from_enum_arm conv specs tag payload s hfind]
    unfold __from_enum_variant
    simp only [hovr, hbind]
  · intro f hovr
    rw [from_enum_arm conv specs tag payload s hfind]
    unfold __from_enum_variant
    simp only [hovr]

/-- Witness for C6, mirroring the doctest scenario in which Case2 with
payload 321 converts to Case2 with payload 321. -/
theorem claim_C6_witness :
    from_enum (fun v : Nat => v)
      [⟨"Case1", none, none⟩, ⟨"Case2", some 1, none⟩] ("Case2", [321])
      = some ("Case2", [321]) :=
  (claim_C6 (fun v : Nat => v)
    [⟨"Case1", none, none⟩, ⟨"Case2", some 1, none⟩] "Case2" [321]
    ⟨"Case2", some 1, none⟩ 1 rfl).1 rfl rfl

/-- C7: under the warning-accumulating strategy, a struct form in which one
field carries a warn-tagged override yielding a pair of a value and one
warning, while every other field contributes no warnings, returns that
field set to the value part of the pair and exactly that one warning. -/
theorem claim_C7 (fconv : V → D × List W) (src : String → V)
    (pre post : List (ForceFieldSpec V D W)) (n : String)
    (f : (String → V) → D × List W) (d : D) (w : W)
    (hpre : ∀ s ∈ pre, forceFieldWarnings fconv src s = [])
    (hpost : ∀ s ∈ post, forceFieldWarnings fconv src s = [])
    (hf : f src = (d, [w])) :
    force_from_struct fconv
      (pre ++ (⟨n, some (ForceOverride.warn f)⟩ : ForceFieldSpec V D W)
        :: post) src
      = (pre.map (fun s => (s.name, forceFieldValue fconv src s))
          ++ (n, d)
          :: post.map (fun s => (s.name, forceFieldValue fconv src s)),
         [w]) := by
  have hw : ∀ l : List (ForceFieldSpec V D W),
      (∀ s ∈ l, forceFieldWarnings fconv src s = []) →
      (l.map (forceFieldWarnings fconv src)).flatten = [] := by
    intro l hl
    rw [List.flatten_eq_nil_iff]
    intro x hx
    obtain ⟨s, hsm, hse⟩ := List.mem_map.mp hx
    rw [← hse]
    exact hl s hsm
  unfold force_from_struct
  rw [force_fields_spec]
  simp [hw pre hpre, hw post hpost, forceFieldValue, forceFieldWarnings, hf]

/-- Witness for C7: one implicit field producing no warnings followed by a
warn-tagged override carrying the single warning 3. -/
theorem claim_C7_witness :
    force_from_struct (fun v : Nat => (v, ([] : List Nat)))
      [⟨"num", none⟩, ⟨"text", some (ForceOverride.warn fun _ => (9, [3]))⟩]
      (fun _ => 5)
      = ([("num", 5), ("text", 9)], [3]) := by
  have h1 : ∀ s ∈ ([⟨"num", none⟩] : List (ForceFieldSpec Nat Nat Nat)),
      forceFieldWarnings (fun v : Nat => (v, ([] : List Nat))) (fun _ => 5) s
        = [] := by
    intro s hs
    rw [List.mem_singleton] at hs
    subst hs
    rfl
  have h2 : ∀ s ∈ ([] : List (ForceFieldSpec Nat Nat Nat)),
      forceFieldWarnings (fun v : Nat => (v, ([] : List Nat))) (fun _ => 5) s
        = [] := by
    intro s hs
    exact absurd hs (List.not_mem_nil s)
  exact claim_C7 (fun v : Nat => (v, ([] : List Nat))) (fun _ => 5)
    [⟨"num", none⟩] [] "text" (fun _ => (9, [3])) 9 3 h1 h2 rfl

/-- C9: the fallible struct form evaluates field expressions in declaration
order: when the fields declared before one failing field all succeed, the
returned failure is that field's, whatever comes after it, and the result
does not depend on the later field expressions at all. -/
theorem claim_C9 (tconv : V → Except E D) (src : String → V)
    (pre : List (TryFieldSpec V E D)) (s : TryFieldSpec V E D) (e : E)
    (hpre : ∀ t ∈ pre, ∃ d, __try_from_struct_field tconv src t = .ok d)
    (hs : __try_from_struct_field tconv src s = .error e) :
    ∀ post post2 : List (TryFieldSpec V E D),
      try_from_struct tconv (pre ++ s :: post) src = .error e ∧
      try_from_struct tconv (pre ++ s :: post) src
        = try_from_struct tconv (pre ++ s :: post2) src := by
  intro post post2
  constructor
  · exact try_from_struct_first_error tconv src pre s post e hpre hs
  · rw [try_from_struct_first_error tconv src pre s post e hpre hs,
      try_from_struct_first_error tconv src pre s post2 e hpre hs]

/-- Witness for C9: two fields would fail, with distinct failure values 7
and 8; the earliest declared one, failing with 7, decides the result. -/
theorem claim_C9_witness :
    try_from_struct
      (fun v : Nat => if v = 0 then (Except.error 7 : Except Nat Nat)
        else if v = 1 then Except.error 8 else Except.ok v)
      [⟨"a", none⟩, ⟨"b", none⟩, ⟨"c", none⟩]
      (fun n => if n == "b" then 0 else if n == "c" then 1 else 2)
      = Except.error 7 := by
  have h := claim_C9
    (fun v : Nat => if v = 0 then (Except.error 7 : Except Nat Nat)
      else if v = 1 then Except.error 8 else Except.ok v)
    (fun n => if n == "b" then 0 else if n == "c" then 1 else 2)
    [⟨"a", none⟩] ⟨"b", none⟩ 7
    (by
      intro t ht
      rw [List.mem_singleton] at ht
      subst ht
      exact ⟨2, rfl⟩)
    rfl
    [⟨"c", none⟩] []
  exact h.1

/-- Witness for C10 at concrete inputs. -/
theorem claim_C10_witness :
    from_struct (fun v : Nat => v)
      ([⟨"num", none⟩] : List (FromFieldSpec Nat Nat)) (fun _ => 3)
      = from_struct (fun v : Nat => v) [⟨"num", none⟩] (fun _ => 3) :=
  (claim_C10 (fun v : Nat => v) (fun v : Nat => (Except.ok v : Except Nat Nat))
    (fun v : Nat => (v, ([] : List Nat))) (fun w : Nat => w)
    [⟨"num", none⟩] [] [] [] [] [] (fun _ => 3) (fun _ => 3)
    ("A", []) ("A", []) rfl rfl).1

end ImplConverter
